import Mathlib

/-!
Shallow embedding of the typestate request-builder and response-decoding
core of the AzureSDKForRust sample (release-blob-lease builder and the
Container entity), together with proofs about the embedded definitions.

Source files embedded:
 - src/azure/storage/blob/requests/release_blob_lease_builder.rs
 - src/azure/storage/container/mod.rs

Rust `Option<T>` becomes `Option`, `Result<T, AzureError>` becomes
`Except AzureError`, `u64` becomes `Nat` (the builder only stores and
prints the timeout, no arithmetic is performed on it), `&str`/`String`
become `String`, and hyper's `HeaderMap` becomes an association list of
lowercased header names to values.
-/

namespace AzureSDK

/-! ## Header-name constants (azure::core::headers and hyper::header) -/

def lastModifiedH : String := "last-modified"
def etagH : String := "etag"
def leaseStatusH : String := "x-ms-lease-status"
def leaseStateH : String := "x-ms-lease-state"
def leaseDurationH : String := "x-ms-lease-duration"
def blobPublicAccessH : String := "x-ms-blob-public-access"
def hasImmutabilityPolicyH : String := "x-ms-has-immutability-policy"
def hasLegalHoldH : String := "x-ms-has-legal-hold"
def metaPrefixH : String := "x-ms-meta-"
def leaseActionH : String := "x-ms-lease-action"
def leaseIdH : String := "x-ms-lease-id"
def clientRequestIdH : String := "x-ms-client-request-id"

/-! ## Errors (azure::core::errors::AzureError, the variants this core hits) -/

inductive AzureError where
  | MissingHeaderError (name : String)
  | ParseError (input : String)
  | UnexpectedXMLError (message : String)
  | UnexpectedStatusCode (expected : Nat) (received : Nat)
deriving DecidableEq, Repr

instance {ε α : Type} [DecidableEq ε] [DecidableEq α] : DecidableEq (Except ε α) :=
  fun a b =>
    match a, b with
    | .ok x, .ok y => decidable_of_iff (x = y) (by simp)
    | .error x, .error y => decidable_of_iff (x = y) (by simp)
    | .ok _, .error _ => isFalse (by simp)
    | .error _, .ok _ => isFalse (by simp)

/-! ## Header map

hyper's `HeaderMap` stores lowercased names; `get` returns the first
value for a name, iteration yields every (name, value) pair in order. -/

abbrev HeaderMap := List (String × String)

def getHeader (headers : HeaderMap) (name : String) : Option String :=
  (headers.find? (fun kv => kv.1 == name)).map (fun kv => kv.2)

/-- Modelled from the spec: the chrono collaborator ("date headers are
parsed from RFC-2822 format into a UTC timestamp") is outside this
repository.  The timestamp is modelled as the parsed text itself and the
parser as total: every claim under verification quantifies only over
well-formed dates, which this model represents as all strings. -/
structure DateTimeUtc where
  raw : String
deriving DecidableEq, Repr

/-- Modelled from the spec: chrono's RFC-2822 parser, see `DateTimeUtc`. -/
def parse_from_rfc2822 (s : String) : Except AzureError DateTimeUtc :=
  .ok ⟨s⟩

/-- Rust's `bool::from_str`: strict "true"/"false" match. -/
def bool_from_str (s : String) : Except AzureError Bool :=
  if s = "true" then .ok true
  else if s = "false" then .ok false
  else .error (.ParseError s)

/-! ## Enumerations

`create_enum!` (azure::core) generates, for each listed (variant, text)
pair, a `FromStr` that maps the text to the variant and errors on any
other input, and an `as_ref` returning the text.  `PublicAccess` is
declared in src/azure/storage/container/mod.rs; the lease enums are
declared the same way in azure::core::lease. -/

inductive PublicAccess where
  | None
  | Container
  | Blob
deriving DecidableEq, Repr

def PublicAccess.fromString (s : String) : Except AzureError PublicAccess :=
  if s = "none" then .ok .None
  else if s = "container" then .ok .Container
  else if s = "blob" then .ok .Blob
  else .error (.ParseError s)

def PublicAccess.as_ref : PublicAccess → String
  | .None => "none"
  | .Container => "container"
  | .Blob => "blob"

inductive LeaseStatus where
  | Locked
  | Unlocked
deriving DecidableEq, Repr

def LeaseStatus.fromString (s : String) : Except AzureError LeaseStatus :=
  if s = "locked" then .ok .Locked
  else if s = "unlocked" then .ok .Unlocked
  else .error (.ParseError s)

inductive LeaseState where
  | Available
  | Leased
  | Expired
  | Breaking
  | Broken
deriving DecidableEq, Repr

def LeaseState.fromString (s : String) : Except AzureError LeaseState :=
  if s = "available" then .ok .Available
  else if s = "leased" then .ok .Leased
  else if s = "expired" then .ok .Expired
  else if s = "breaking" then .ok .Breaking
  else if s = "broken" then .ok .Broken
  else .error (.ParseError s)

inductive LeaseDuration where
  | Infinite
  | Fixed
deriving DecidableEq, Repr

def LeaseDuration.fromString (s : String) : Except AzureError LeaseDuration :=
  if s = "infinite" then .ok .Infinite
  else if s = "fixed" then .ok .Fixed
  else .error (.ParseError s)

/-! ## Client (azure::storage::client::Client, the part this core reads) -/

structure Client where
  account : String
deriving DecidableEq, Repr

/-- azure::core::lease::LeaseId is a Uuid; its identity and string form
are all this core uses. -/
abbrev LeaseId := String

/-! ## The typestate builder
(src/azure/storage/blob/requests/release_blob_lease_builder.rs)

The three `ToAssign` phantom parameters `ContainerNameSet`, `BlobNameSet`
and `LeaseIdSet` (`Yes`/`No` marker types in Rust) are embedded as three
`Bool` type indices (`true` = `Yes`). -/

structure ReleaseBlobLeaseBuilder (containerNameSet blobNameSet leaseIdSet : Bool) where
  client : Client
  container_name : Option String
  blob_name : Option String
  lease_id : Option LeaseId
  timeout : Option Nat
  client_request_id : Option String
deriving DecidableEq, Repr

namespace ReleaseBlobLeaseBuilder

/-- `ReleaseBlobLeaseBuilder::new` (lines 34-49): all slots unset. -/
def new (client : Client) : ReleaseBlobLeaseBuilder false false false :=
  { client := client
    container_name := none
    blob_name := none
    lease_id := none
    timeout := none
    client_request_id := none }

/-- `ContainerNameSupport::with_container_name` (lines 122-145). -/
def with_container_name {c b l : Bool} (self : ReleaseBlobLeaseBuilder c b l)
    (container_name : String) : ReleaseBlobLeaseBuilder true b l :=
  { client := self.client
    container_name := some container_name
    blob_name := self.blob_name
    lease_id := self.lease_id
    timeout := self.timeout
    client_request_id := self.client_request_id }

/-- `BlobNameSupport::with_blob_name` (lines 147-170). -/
def with_blob_name {c b l : Bool} (self : ReleaseBlobLeaseBuilder c b l)
    (blob_name : String) : ReleaseBlobLeaseBuilder c true l :=
  { client := self.client
    container_name := self.container_name
    blob_name := some blob_name
    lease_id := self.lease_id
    timeout := self.timeout
    client_request_id := self.client_request_id }

/-- `LeaseIdSupport::with_lease_id` (lines 172-195). -/
def with_lease_id {c b l : Bool} (self : ReleaseBlobLeaseBuilder c b l)
    (lease_id : LeaseId) : ReleaseBlobLeaseBuilder c b true :=
  { client := self.client
    container_name := self.container_name
    blob_name := self.blob_name
    lease_id := some lease_id
    timeout := self.timeout
    client_request_id := self.client_request_id }

/-- `TimeoutSupport::with_timeout` (lines 197-220). -/
def with_timeout {c b l : Bool} (self : ReleaseBlobLeaseBuilder c b l)
    (timeout : Nat) : ReleaseBlobLeaseBuilder c b l :=
  { client := self.client
    container_name := self.container_name
    blob_name := self.blob_name
    lease_id := self.lease_id
    timeout := some timeout
    client_request_id := self.client_request_id }

/-- `ClientRequestIdSupport::with_client_request_id` (lines 222-245). -/
def with_client_request_id {c b l : Bool} (self : ReleaseBlobLeaseBuilder c b l)
    (client_request_id : String) : ReleaseBlobLeaseBuilder c b l :=
  { client := self.client
    container_name := self.container_name
    blob_name := self.blob_name
    lease_id := self.lease_id
    timeout := self.timeout
    client_request_id := some client_request_id }

/-- `ContainerNameRequired::container_name` (lines 64-73): implemented only
for builders whose `ContainerNameSet` parameter is `Yes`, and unwraps the
`Option` slot.  The Rust `unwrap` is modelled by `Option.get!`. -/
def container_name_acc {b l : Bool} (self : ReleaseBlobLeaseBuilder true b l) : String :=
  self.container_name.get!

/-- `BlobNameRequired::blob_name` (lines 75-84). -/
def blob_name_acc {c l : Bool} (self : ReleaseBlobLeaseBuilder c true l) : String :=
  self.blob_name.get!

/-- `LeaseIdRequired::lease_id` (lines 86-95). -/
def lease_id_acc {c b : Bool} (self : ReleaseBlobLeaseBuilder c b true) : LeaseId :=
  self.lease_id.get!

/-- `TimeoutOption::timeout` (lines 97-107). -/
def timeout_opt {c b l : Bool} (self : ReleaseBlobLeaseBuilder c b l) : Option Nat :=
  self.timeout

/-- `ClientRequestIdOption::client_request_id` (lines 109-120). -/
def client_request_id_opt {c b l : Bool} (self : ReleaseBlobLeaseBuilder c b l) : Option String :=
  self.client_request_id

/-- The builders reachable from `new` by a chain of `with_*` mutators:
exactly the values the Rust API can construct (the struct fields are
private; `new` and the `Support` traits are the only constructors). -/
inductive Reachable : {c b l : Bool} → ReleaseBlobLeaseBuilder c b l → Prop where
  | new (client : Client) : Reachable (new client)
  | with_container_name {c b l : Bool} (self : ReleaseBlobLeaseBuilder c b l) (v : String) :
      Reachable self → Reachable (self.with_container_name v)
  | with_blob_name {c b l : Bool} (self : ReleaseBlobLeaseBuilder c b l) (v : String) :
      Reachable self → Reachable (self.with_blob_name v)
  | with_lease_id {c b l : Bool} (self : ReleaseBlobLeaseBuilder c b l) (v : LeaseId) :
      Reachable self → Reachable (self.with_lease_id v)
  | with_timeout {c b l : Bool} (self : ReleaseBlobLeaseBuilder c b l) (v : Nat) :
      Reachable self → Reachable (self.with_timeout v)
  | with_client_request_id {c b l : Bool} (self : ReleaseBlobLeaseBuilder c b l) (v : String) :
      Reachable self → Reachable (self.with_client_request_id v)

end ReleaseBlobLeaseBuilder

/-! ## The Container entity (src/azure/storage/container/mod.rs) -/

/-- `HashMap::insert` on the association-list model: replaces the value
when the key is present, appends the pair otherwise. -/
def insertKV (m : List (String × String)) (k v : String) : List (String × String) :=
  if m.any (fun kv => kv.1 == k) then
    m.map (fun kv => if kv.1 == k then (k, v) else kv)
  else
    m ++ [(k, v)]

structure Container where
  name : String
  last_modified : DateTimeUtc
  e_tag : String
  lease_status : LeaseStatus
  lease_state : LeaseState
  lease_duration : Option LeaseDuration
  public_access : PublicAccess
  has_immutability_policy : Bool
  has_legal_hold : Bool
  metadata : List (String × String)
deriving DecidableEq, Repr

/-- `public_access_from_header` (container/mod.rs lines 24-30). -/
def public_access_from_header (headers : HeaderMap) : Except AzureError PublicAccess :=
  match getHeader headers blobPublicAccessH with
  | some pa => PublicAccess.fromString pa
  | none => .ok PublicAccess.None

/-- Rust's `str::starts_with`: character-level prefix test. -/
def startsWithH (s pre : String) : Bool :=
  pre.data.isPrefixOf s.data

/-- The body of the metadata loop of `Container::from_response`
(lines 132-136): a header whose name starts with the metadata prefix is
inserted into the map under its full header name, any other header is
skipped. -/
def metaStep (m : List (String × String)) (kv : String × String) :
    List (String × String) :=
  if startsWithH kv.1 metaPrefixH then insertKV m kv.1 kv.2 else m

/-- The metadata loop of `Container::from_response` (lines 131-136). -/
def responseMetadata (headers : HeaderMap) : List (String × String) :=
  headers.foldl metaStep []

/-- The lease-duration step of `Container::from_response` (lines 114-117):
a present header must parse, an absent one yields `none`. -/
def leaseDurationStep (headers : HeaderMap) : Except AzureError (Option LeaseDuration) :=
  match getHeader headers leaseDurationH with
  | some ldRaw => Except.map some (LeaseDuration.fromString ldRaw)
  | none => .ok none

/-- `Container::from_response` (container/mod.rs lines 83-150). -/
def Container.from_response (name : String) (headers : HeaderMap) :
    Except AzureError Container :=
  match getHeader headers lastModifiedH with
  | none => .error (.MissingHeaderError lastModifiedH)
  | some lmRaw =>
    match parse_from_rfc2822 lmRaw with
    | .error e => .error e
    | .ok last_modified =>
      match getHeader headers etagH with
      | none => .error (.MissingHeaderError etagH)
      | some e_tag =>
        match getHeader headers leaseStatusH with
        | none => .error (.MissingHeaderError leaseStatusH)
        | some lsRaw =>
          match LeaseStatus.fromString lsRaw with
          | .error e => .error e
          | .ok lease_status =>
            match getHeader headers leaseStateH with
            | none => .error (.MissingHeaderError leaseStateH)
            | some lstRaw =>
              match LeaseState.fromString lstRaw with
              | .error e => .error e
              | .ok lease_state =>
                match leaseDurationStep headers with
                | .error e => .error e
                | .ok lease_duration =>
                  match public_access_from_header headers with
                  | .error e => .error e
                  | .ok public_access =>
                    match getHeader headers hasImmutabilityPolicyH with
                    | none => .error (.MissingHeaderError hasImmutabilityPolicyH)
                    | some hipRaw =>
                      match bool_from_str hipRaw with
                      | .error e => .error e
                      | .ok has_immutability_policy =>
                        match getHeader headers hasLegalHoldH with
                        | none => .error (.MissingHeaderError hasLegalHoldH)
                        | some hlhRaw =>
                          match bool_from_str hlhRaw with
                          | .error e => .error e
                          | .ok has_legal_hold =>
                            .ok { name := name
                                  last_modified := last_modified
                                  e_tag := e_tag
                                  lease_status := lease_status
                                  lease_state := lease_state
                                  lease_duration := lease_duration
                                  public_access := public_access
                                  has_immutability_policy := has_immutability_policy
                                  has_legal_hold := has_legal_hold
                                  metadata := responseMetadata headers }

/-! ## XML element trees (the xml crate's `Xml`/`Element`, consumed
read-only).  An element is represented by its name paired with its child
list; attributes are not read by this core. -/

inductive Xml where
  | ElementNode (name : String) (children : List Xml)
  | CharacterNode (content : String)
  | CDATANode (content : String)
  | CommentNode (content : String)

/-- An element, as the pair (name, children). -/
abbrev XmlElem := String × List Xml

/-- The child elements of `e` named `nm`. -/
def findElems (e : XmlElem) (nm : String) : List XmlElem :=
  e.2.filterMap (fun x =>
    match x with
    | .ElementNode n cs => if n == nm then some (n, cs) else none
    | _ => none)

/-- The concatenated character data directly under an element: the text
content a leaf cast coerces from. -/
def innerText (e : XmlElem) : String :=
  String.join (e.2.filterMap (fun x =>
    match x with
    | .CharacterNode s => some s
    | .CDATANode s => some s
    | _ => none))

/-- Modelled from the spec: `traverse` (azure::core::parsing, not among
the given sources) "navigates a parsed XML element tree by a fixed
sequence of child-element names (a path)", returning every element at the
end of the path; with `ignoreEmptyLeaf` it returns the empty list instead
of failing when the final path step matches nothing. -/
def traverseFrom (es : List XmlElem) (path : List String) (ignoreEmptyLeaf : Bool) :
    Except AzureError (List XmlElem) :=
  match path with
  | [] => .ok es
  | n :: rest =>
    let found := es.flatMap (fun e => findElems e n)
    if found.isEmpty then
      if rest.isEmpty && ignoreEmptyLeaf then .ok []
      else .error (.UnexpectedXMLError ("Element not found: " ++ n))
    else traverseFrom found rest ignoreEmptyLeaf

/-- Modelled from the spec: `cast_must` (azure::core::parsing) "fails with
an element-not-found error if the path is absent", otherwise coerces the
leaf's text content with the target type's parser. -/
def cast_must (parse : String → Except AzureError α) (e : XmlElem) (path : List String) :
    Except AzureError α :=
  match traverseFrom [e] path false with
  | .error err => .error err
  | .ok [] => .error (.UnexpectedXMLError "Element not found")
  | .ok (x :: _) => parse (innerText x)

/-- Modelled from the spec: `cast_optional` (azure::core::parsing)
"returns absent instead of failing" when the path is absent. -/
def cast_optional (parse : String → Except AzureError α) (e : XmlElem) (path : List String) :
    Except AzureError (Option α) :=
  match traverseFrom [e] path true with
  | .error err => .error err
  | .ok [] => .ok none
  | .ok (x :: _) => Except.map some (parse (innerText x))

/-- `String` leaves parse verbatim (`FromStringOptional` for `String`). -/
def string_from_str (s : String) : Except AzureError String := .ok s

/-- The inner double loop of `Container::parse`'s metadata block
(lines 175-205), over the children of one `Metadata` element. -/
def parseMetadataChildren (children : List Xml) (hm : List (String × String)) :
    Except AzureError (List (String × String)) :=
  match children with
  | [] => .ok hm
  | x :: rest =>
    match x with
    | .ElementNode key kids =>
      match kids with
      | [] => .error (.UnexpectedXMLError "Metadata node should not be empty")
      | k0 :: _ =>
        match k0 with
        | .CharacterNode content => parseMetadataChildren rest (insertKV hm key content)
        | _ =>
          .error (.UnexpectedXMLError
            "Metadata node should contain a CharacterNode with metadata value")
    | _ => .error (.UnexpectedXMLError "Metadata should contain an ElementNode")

/-- A `Metadata` child the loop of `Container::parse` accepts: an element
node whose first child is a character node. -/
def goodMetaChild : Xml → Bool
  | .ElementNode _ (Xml.CharacterNode _ :: _) => true
  | _ => false

/-- The outer loop of the metadata block: each traversed `Metadata`
element's children feed the same accumulating map. -/
def parseMetadataElems (ms : List XmlElem) (hm : List (String × String)) :
    Except AzureError (List (String × String)) :=
  match ms with
  | [] => .ok hm
  | m :: rest =>
    match parseMetadataChildren m.2 hm with
    | .error e => .error e
    | .ok hm' => parseMetadataElems rest hm'

/-- `Container::parse` (container/mod.rs lines 152-222). -/
def Container.parse (elem : XmlElem) : Except AzureError Container :=
  match cast_must string_from_str elem ["Name"] with
  | .error e => .error e
  | .ok name =>
    match cast_must parse_from_rfc2822 elem ["Properties", "Last-Modified"] with
    | .error e => .error e
    | .ok last_modified =>
      match cast_must string_from_str elem ["Properties", "Etag"] with
      | .error e => .error e
      | .ok e_tag =>
        match cast_must LeaseState.fromString elem ["Properties", "LeaseState"] with
        | .error e => .error e
        | .ok lease_state =>
          match cast_optional LeaseDuration.fromString elem ["Properties", "LeaseDuration"] with
          | .error e => .error e
          | .ok lease_duration =>
            match cast_must LeaseStatus.fromString elem ["Properties", "LeaseStatus"] with
            | .error e => .error e
            | .ok lease_status =>
              match cast_optional PublicAccess.fromString elem ["Properties", "PublicAccess"] with
              | .error e => .error e
              | .ok public_access_opt =>
                let public_access :=
                  match public_access_opt with
                  | some pa => pa
                  | none => PublicAccess.None
                match cast_must bool_from_str elem ["Properties", "HasImmutabilityPolicy"] with
                | .error e => .error e
                | .ok has_immutability_policy =>
                  match cast_must bool_from_str elem ["Properties", "HasLegalHold"] with
                  | .error e => .error e
                  | .ok has_legal_hold =>
                    match traverseFrom [elem] ["Metadata"] true with
                    | .error e => .error e
                    | .ok metas =>
                      match parseMetadataElems metas [] with
                      | .error e => .error e
                      | .ok metadata =>
                        .ok { name := name
                              last_modified := last_modified
                              e_tag := e_tag
                              lease_status := lease_status
                              lease_state := lease_state
                              lease_duration := lease_duration
                              public_access := public_access
                              has_immutability_policy := has_immutability_policy
                              has_legal_hold := has_legal_hold
                              metadata := metadata }

/-! ## Outgoing request assembly -/

/-- http's `request::Builder`, restricted to what this core writes: an
ordered list of (header name, header value) pairs. -/
structure HttpBuilder where
  headers : List (String × String)
deriving DecidableEq, Repr

def HttpBuilder.header (b : HttpBuilder) (k v : String) : HttpBuilder :=
  ⟨b.headers ++ [(k, v)]⟩

/-- `PublicAccessRequired::add_header` (container/mod.rs lines 37-45):
writes the blob-public-access header only when the value is not `None`. -/
def publicAccessAddHeader (public_access : PublicAccess) (builder : HttpBuilder) : HttpBuilder :=
  if public_access ≠ PublicAccess.None then
    builder.header blobPublicAccessH public_access.as_ref
  else builder

/-- URL-safe characters, kept verbatim by percent-encoding. -/
def isUrlSafeChar (ch : Char) : Bool :=
  ch.isAlphanum || ch == '-' || ch == '_' || ch == '.' || ch == '~'

def hexDigit (n : Nat) : Char :=
  if n < 10 then Char.ofNat ('0'.toNat + n) else Char.ofNat ('A'.toNat + (n - 10))

/-- UTF-8 bytes of a character, as `Nat`s below 256. -/
def utf8Bytes (ch : Char) : List Nat :=
  let n := ch.toNat
  if n < 0x80 then [n]
  else if n < 0x800 then [0xC0 + n / 0x40, 0x80 + n % 0x40]
  else if n < 0x10000 then [0xE0 + n / 0x1000, 0x80 + (n / 0x40) % 0x40, 0x80 + n % 0x40]
  else [0xF0 + n / 0x40000, 0x80 + (n / 0x1000) % 0x40, 0x80 + (n / 0x40) % 0x40, 0x80 + n % 0x40]

/-- Modelled from the spec: `utf8_percent_encode` with the SDK's
`COMPLETE_ENCODE_SET` ("percent-encoding path segments"): safe characters
pass through, every other character's UTF-8 bytes become %XX triples. -/
def percentEncode (s : String) : String :=
  ⟨s.data.flatMap (fun ch =>
    if isUrlSafeChar ch then [ch]
    else (utf8Bytes ch).flatMap (fun b => ['%', hexDigit (b / 16 % 16), hexDigit (b % 16)]))⟩

/-- Modelled from the spec: `generate_blob_uri` (azure::storage::blob, not
among the given sources) builds the resource path
`https://{account}.blob.core.windows.net/{container}/{blob}` with
percent-encoded path segments and appends `?{params}` when present — the
blob-level twin of `generate_container_uri` (container/mod.rs
lines 225-243). -/
def generate_blob_uri {l : Bool} (t : ReleaseBlobLeaseBuilder true true l)
    (params : Option String) : String :=
  match params with
  | some p =>
    "https://" ++ t.client.account ++ ".blob.core.windows.net/"
      ++ percentEncode t.container_name_acc ++ "/" ++ percentEncode t.blob_name_acc
      ++ "?" ++ p
  | none =>
    "https://" ++ t.client.account ++ ".blob.core.windows.net/"
      ++ percentEncode t.container_name_acc ++ "/" ++ percentEncode t.blob_name_acc

/-- Modelled from the spec: `TimeoutOption::to_uri_parameter`
(azure::core) renders the present timeout as the encoded
`timeout={value}` pair and is absent otherwise. -/
def timeout_to_uri_parameter {c b l : Bool} (t : ReleaseBlobLeaseBuilder c b l) :
    Option String :=
  match t.timeout with
  | some nm => some ("timeout=" ++ toString nm)
  | none => none

/-- Modelled from the spec: `LeaseIdRequired::add_header` (azure::core)
"writes exactly one header with a fixed name" carrying the lease id. -/
def leaseIdAddHeader {c b : Bool} (t : ReleaseBlobLeaseBuilder c b true)
    (builder : HttpBuilder) : HttpBuilder :=
  builder.header leaseIdH t.lease_id_acc

/-- Modelled from the spec: `ClientRequestIdOption::add_header`
(azure::core) "is a no-op when the corresponding optional value is absent
and otherwise writes exactly one header with a fixed name". -/
def clientRequestIdAddHeader {c b l : Bool} (t : ReleaseBlobLeaseBuilder c b l)
    (builder : HttpBuilder) : HttpBuilder :=
  match t.client_request_id with
  | some v => builder.header clientRequestIdH v
  | none => builder

/-- The URI assembled by `ReleaseBlobLeaseBuilder::finalize`
(release_blob_lease_builder.rs lines 257-261): the blob URI with the
`comp=lease` marker, then the timeout parameter appended with `&` when
present. -/
def ReleaseBlobLeaseBuilder.finalizeUri (self : ReleaseBlobLeaseBuilder true true true) :
    String :=
  let uri := generate_blob_uri self (some "comp=lease")
  match timeout_to_uri_parameter self with
  | some nm => uri ++ "&" ++ nm
  | none => uri

/-- The headers written by `finalize`'s request closure (lines 266-270):
lease id, the fixed lease action, then the optional client request id. -/
def ReleaseBlobLeaseBuilder.finalizeHeaders (self : ReleaseBlobLeaseBuilder true true true) :
    List (String × String) :=
  (clientRequestIdAddHeader self
    ((leaseIdAddHeader self (HttpBuilder.mk [])).header leaseActionH "release")).headers

/-! ## Response handling for finalize -/

/-- The transport collaborator's response: status code, headers, body. -/
structure RawResponse where
  status : Nat
  headers : HeaderMap
  body : String
deriving DecidableEq, Repr

/-- Modelled from the spec: `check_status_extract_headers_and_body`
(azure::core::errors) — "a response with the documented success code for
an operation yields Ok; any other status code yields
UnexpectedStatusCode". -/
def check_status_extract_headers_and_body (resp : RawResponse) (expected : Nat) :
    Except AzureError (HeaderMap × String) :=
  if resp.status = expected then .ok (resp.headers, resp.body)
  else .error (.UnexpectedStatusCode expected resp.status)

/-- Modelled from the spec: `ReleaseBlobLeaseResponse`
(azure::storage::blob::responses, not among the given sources) is a
header-only decoded entity; per the spec's header-decode contract its
mandatory fields (etag, request id) are read off named response headers,
failing with `MissingHeaderError` naming the absent header. -/
structure ReleaseBlobLeaseResponse where
  etag : String
  request_id : String
deriving DecidableEq, Repr

/-- Modelled from the spec: `ReleaseBlobLeaseResponse::from_headers`. -/
def ReleaseBlobLeaseResponse.from_headers (headers : HeaderMap) :
    Except AzureError ReleaseBlobLeaseResponse :=
  match getHeader headers etagH with
  | none => .error (.MissingHeaderError etagH)
  | some etag =>
    match getHeader headers "x-ms-request-id" with
    | none => .error (.MissingHeaderError "x-ms-request-id")
    | some request_id => .ok { etag := etag, request_id := request_id }

/-- The response pipeline of `finalize` (lines 274-278): the status gate
with expected code `StatusCode::OK` (200), then the header-only decode of
the entity. -/
def releaseBlobLeaseRespond (resp : RawResponse) :
    Except AzureError ReleaseBlobLeaseResponse :=
  match check_status_extract_headers_and_body resp 200 with
  | .error e => .error e
  | .ok (headers, _body) => ReleaseBlobLeaseResponse.from_headers headers

/-! ## Query-string observation (used to state the claims about URIs) -/

/-- Everything after the first occurrence of `sep`, if any. -/
def afterFirst (sep : Char) : List Char → Option (List Char)
  | [] => none
  | ch :: rest => if ch = sep then some rest else afterFirst sep rest

/-- Split a character list on a separator; `n` separators yield `n + 1`
(possibly empty) chunks. -/
def splitOnSep (sep : Char) : List Char → List (List Char)
  | [] => [[]]
  | ch :: rest =>
    let r := splitOnSep sep rest
    if ch = sep then [] :: r
    else
      match r with
      | h :: t => (ch :: h) :: t
      | [] => [[ch]]

/-- The `&`-separated key=value chunks of a URI's query string (empty if
the URI has no `?`). -/
def queryPairs (uri : String) : List String :=
  match afterFirst '?' uri.data with
  | some q => (splitOnSep '&' q).map (fun cs => String.mk cs)
  | none => []

/-! ## Concrete test vectors -/

/-- A header map carrying every mandatory container header, well-formed. -/
def hsC2 : HeaderMap :=
  [("last-modified", "Mon, 01 Jan 2018 00:00:00 GMT"), ("etag", "0x8D0"),
   ("x-ms-lease-status", "unlocked"), ("x-ms-lease-state", "available"),
   ("x-ms-has-immutability-policy", "false"), ("x-ms-has-legal-hold", "false")]

/-- Like `hsC2` but without the etag header. -/
def hsC2noEtag : HeaderMap :=
  [("last-modified", "Mon, 01 Jan 2018 00:00:00 GMT"),
   ("x-ms-lease-status", "unlocked"), ("x-ms-lease-state", "available"),
   ("x-ms-has-immutability-policy", "false"), ("x-ms-has-legal-hold", "false")]

/-- All mandatory container headers plus one metadata header. -/
def hsC3 : HeaderMap :=
  [("last-modified", "Mon, 01 Jan 2018 00:00:00 GMT"), ("etag", "0x8D0"),
   ("x-ms-lease-status", "unlocked"), ("x-ms-lease-state", "available"),
   ("x-ms-has-immutability-policy", "false"), ("x-ms-has-legal-hold", "false"),
   ("x-ms-meta-foo", "bar")]

/-- The container decoded from `hsC3`. -/
def contC3 : Container :=
  { name := "c", last_modified := ⟨"Mon, 01 Jan 2018 00:00:00 GMT"⟩,
    e_tag := "0x8D0", lease_status := .Unlocked, lease_state := .Available,
    lease_duration := none, public_access := .None,
    has_immutability_policy := false, has_legal_hold := false,
    metadata := [("x-ms-meta-foo", "bar")] }

/-- All mandatory container headers; lease-duration absent while
blob-public-access is present. -/
def hsC9ld : HeaderMap :=
  [("last-modified", "Tue, 02 Jan 2018 00:00:00 GMT"), ("etag", "0x8D1"),
   ("x-ms-lease-status", "locked"), ("x-ms-lease-state", "leased"),
   ("x-ms-blob-public-access", "blob"),
   ("x-ms-has-immutability-policy", "true"), ("x-ms-has-legal-hold", "false")]

/-- All mandatory container headers; blob-public-access absent while
lease-duration is present. -/
def hsC9pa : HeaderMap :=
  [("last-modified", "Tue, 02 Jan 2018 00:00:00 GMT"), ("etag", "0x8D1"),
   ("x-ms-lease-status", "locked"), ("x-ms-lease-state", "leased"),
   ("x-ms-lease-duration", "fixed"),
   ("x-ms-has-immutability-policy", "true"), ("x-ms-has-legal-hold", "false")]

/-- A well-formed `<Container>` element with one metadata entry. -/
def treeC6 : XmlElem :=
  ("Container",
   [Xml.ElementNode "Name" [Xml.CharacterNode "c1"],
    Xml.ElementNode "Properties"
      [Xml.ElementNode "Last-Modified" [Xml.CharacterNode "Mon, 01 Jan 2018 00:00:00 GMT"],
       Xml.ElementNode "Etag" [Xml.CharacterNode "0x8D0"],
       Xml.ElementNode "LeaseState" [Xml.CharacterNode "available"],
       Xml.ElementNode "LeaseStatus" [Xml.CharacterNode "unlocked"],
       Xml.ElementNode "HasImmutabilityPolicy" [Xml.CharacterNode "false"],
       Xml.ElementNode "HasLegalHold" [Xml.CharacterNode "false"]],
    Xml.ElementNode "Metadata" [Xml.ElementNode "foo" [Xml.CharacterNode "bar"]]])

/-- A well-formed `<Container>` element with no `Metadata` node, no
`LeaseDuration` property, and a present `PublicAccess` property. -/
def treeC9ld : XmlElem :=
  ("Container",
   [Xml.ElementNode "Name" [Xml.CharacterNode "c2"],
    Xml.ElementNode "Properties"
      [Xml.ElementNode "Last-Modified" [Xml.CharacterNode "Tue, 02 Jan 2018 00:00:00 GMT"],
       Xml.ElementNode "Etag" [Xml.CharacterNode "0x8D1"],
       Xml.ElementNode "LeaseState" [Xml.CharacterNode "leased"],
       Xml.ElementNode "LeaseStatus" [Xml.CharacterNode "locked"],
       Xml.ElementNode "PublicAccess" [Xml.CharacterNode "container"],
       Xml.ElementNode "HasImmutabilityPolicy" [Xml.CharacterNode "true"],
       Xml.ElementNode "HasLegalHold" [Xml.CharacterNode "false"]]])

/-- A well-formed `<Container>` element with no `Metadata` node, no
`PublicAccess` property, and a present `LeaseDuration` property. -/
def treeC9pa : XmlElem :=
  ("Container",
   [Xml.ElementNode "Name" [Xml.CharacterNode "c2"],
    Xml.ElementNode "Properties"
      [Xml.ElementNode "Last-Modified" [Xml.CharacterNode "Tue, 02 Jan 2018 00:00:00 GMT"],
       Xml.ElementNode "Etag" [Xml.CharacterNode "0x8D1"],
       Xml.ElementNode "LeaseState" [Xml.CharacterNode "leased"],
       Xml.ElementNode "LeaseStatus" [Xml.CharacterNode "locked"],
       Xml.ElementNode "LeaseDuration" [Xml.CharacterNode "infinite"],
       Xml.ElementNode "HasImmutabilityPolicy" [Xml.CharacterNode "true"],
       Xml.ElementNode "HasLegalHold" [Xml.CharacterNode "false"]]])

/-- Like `treeC6` but with a malformed (empty-element) metadata child
after a well-formed entry. -/
def treeC6bad : XmlElem :=
  ("Container",
   [Xml.ElementNode "Name" [Xml.CharacterNode "c1"],
    Xml.ElementNode "Properties"
      [Xml.ElementNode "Last-Modified" [Xml.CharacterNode "Mon, 01 Jan 2018 00:00:00 GMT"],
       Xml.ElementNode "Etag" [Xml.CharacterNode "0x8D0"],
       Xml.ElementNode "LeaseState" [Xml.CharacterNode "available"],
       Xml.ElementNode "LeaseStatus" [Xml.CharacterNode "unlocked"],
       Xml.ElementNode "HasImmutabilityPolicy" [Xml.CharacterNode "false"],
       Xml.ElementNode "HasLegalHold" [Xml.CharacterNode "false"]],
    Xml.ElementNode "Metadata"
      [Xml.ElementNode "foo" [Xml.CharacterNode "bar"],
       Xml.ElementNode "bad" []]])

/-- A fully-set builder with a client request id but no timeout. -/
def bC4 : ReleaseBlobLeaseBuilder true true true :=
  ((((ReleaseBlobLeaseBuilder.new ⟨"acct"⟩).with_container_name
      "cont").with_blob_name "blob").with_lease_id "lid").with_client_request_id "rid"

/-- A fully-set builder reached by the three mandatory mutators. -/
def bC1 : ReleaseBlobLeaseBuilder true true true :=
  (((ReleaseBlobLeaseBuilder.new ⟨"acct"⟩).with_container_name
      "cont").with_blob_name "blob").with_lease_id "lid"

/-! # Theorems -/

/-- Typestate invariant: on every reachable builder, a mandatory slot is
populated whenever its type-level marker says "set". -/
theorem reachable_marker_isSome {c b l : Bool} (bl : ReleaseBlobLeaseBuilder c b l)
    (h : bl.Reachable) :
    (c = true → bl.container_name.isSome) ∧
    (b = true → bl.blob_name.isSome) ∧
    (l = true → bl.lease_id.isSome) := by
  induction h with
  | new client =>
    refine ⟨?_, ?_, ?_⟩ <;> intro hmark <;> cases hmark
  | with_container_name self v _ ih =>
    exact ⟨fun _ => rfl, fun hb => (ih.2.1 hb), fun hl => (ih.2.2 hl)⟩
  | with_blob_name self v _ ih =>
    exact ⟨fun hc => (ih.1 hc), fun _ => rfl, fun hl => (ih.2.2 hl)⟩
  | with_lease_id self v _ ih =>
    exact ⟨fun hc => (ih.1 hc), fun hb => (ih.2.1 hb), fun _ => rfl⟩
  | with_timeout self v _ ih =>
    exact ⟨fun hc => (ih.1 hc), fun hb => (ih.2.1 hb), fun hl => (ih.2.2 hl)⟩
  | with_client_request_id self v _ ih =>
    exact ⟨fun hc => (ih.1 hc), fun hb => (ih.2.1 hb), fun hl => (ih.2.2 hl)⟩

/-- C1: `finalize` is implemented only on `ReleaseBlobLeaseBuilder` whose
three markers are all set (in this embedding, `finalizeUri` and the
`*_acc` accessors are typed over `true true true`), and on every such
builder reachable from `new` by a chain of `with_*` mutators the three
mandatory slots hold a value, which is exactly what the corresponding
accessor returns — the accessors' internal `unwrap` never sees `None`, so
no runtime missing-mandatory-field error can occur. -/
theorem release_builder_typestate_accessors (bl : ReleaseBlobLeaseBuilder true true true)
    (h : bl.Reachable) :
    (∃ v, bl.container_name = some v ∧ bl.container_name_acc = v) ∧
    (∃ v, bl.blob_name = some v ∧ bl.blob_name_acc = v) ∧
    (∃ v, bl.lease_id = some v ∧ bl.lease_id_acc = v) := by
  obtain ⟨hc, hb, hl⟩ := reachable_marker_isSome bl h
  refine ⟨?_, ?_, ?_⟩
  · obtain ⟨v, hv⟩ := Option.isSome_iff_exists.mp (hc rfl)
    exact ⟨v, hv, by simp [ReleaseBlobLeaseBuilder.container_name_acc, hv]⟩
  · obtain ⟨v, hv⟩ := Option.isSome_iff_exists.mp (hb rfl)
    exact ⟨v, hv, by simp [ReleaseBlobLeaseBuilder.blob_name_acc, hv]⟩
  · obtain ⟨v, hv⟩ := Option.isSome_iff_exists.mp (hl rfl)
    exact ⟨v, hv, by simp [ReleaseBlobLeaseBuilder.lease_id_acc, hv]⟩

/-- C1 witness: the theorem applied to a concrete mutator chain. -/
theorem release_builder_typestate_accessors_w :
    (∃ v, bC1.container_name = some v ∧ bC1.container_name_acc = v) ∧
    (∃ v, bC1.blob_name = some v ∧ bC1.blob_name_acc = v) ∧
    (∃ v, bC1.lease_id = some v ∧ bC1.lease_id_acc = v) :=
  release_builder_typestate_accessors bC1
    (.with_lease_id _ _ (.with_blob_name _ _ (.with_container_name _ _ (.new _))))

/-- C7: each mandatory mutator (`with_container_name`, `with_blob_name`,
`with_lease_id`) stores the supplied value in its own slot and carries
every other field of the original builder forward unchanged; being a pure
function it returns a new builder value instead of mutating in place. -/
theorem mandatory_mutators_frame {c b l : Bool} (bl : ReleaseBlobLeaseBuilder c b l)
    (cn bn : String) (lid : LeaseId) :
    ((bl.with_container_name cn).container_name = some cn ∧
     (bl.with_container_name cn).client = bl.client ∧
     (bl.with_container_name cn).blob_name = bl.blob_name ∧
     (bl.with_container_name cn).lease_id = bl.lease_id ∧
     (bl.with_container_name cn).timeout = bl.timeout ∧
     (bl.with_container_name cn).client_request_id = bl.client_request_id) ∧
    ((bl.with_blob_name bn).blob_name = some bn ∧
     (bl.with_blob_name bn).client = bl.client ∧
     (bl.with_blob_name bn).container_name = bl.container_name ∧
     (bl.with_blob_name bn).lease_id = bl.lease_id ∧
     (bl.with_blob_name bn).timeout = bl.timeout ∧
     (bl.with_blob_name bn).client_request_id = bl.client_request_id) ∧
    ((bl.with_lease_id lid).lease_id = some lid ∧
     (bl.with_lease_id lid).client = bl.client ∧
     (bl.with_lease_id lid).container_name = bl.container_name ∧
     (bl.with_lease_id lid).blob_name = bl.blob_name ∧
     (bl.with_lease_id lid).timeout = bl.timeout ∧
     (bl.with_lease_id lid).client_request_id = bl.client_request_id) :=
  ⟨⟨rfl, rfl, rfl, rfl, rfl, rfl⟩, ⟨rfl, rfl, rfl, rfl, rfl, rfl⟩,
   ⟨rfl, rfl, rfl, rfl, rfl, rfl⟩⟩

/-- C8: the optional mutators obey last-write-wins (`with_timeout` twice
equals the second call alone, likewise `with_client_request_id`), a fresh
builder has both optional slots absent, and no other mutator touches
them. -/
theorem optional_mutators_last_write_wins {c b l : Bool}
    (bl : ReleaseBlobLeaseBuilder c b l) (t1 t2 : Nat) (r1 r2 : String)
    (cl : Client) (cn bn : String) (lid : LeaseId) :
    ((bl.with_timeout t1).with_timeout t2 = bl.with_timeout t2) ∧
    ((bl.with_client_request_id r1).with_client_request_id r2
       = bl.with_client_request_id r2) ∧
    ((ReleaseBlobLeaseBuilder.new cl).timeout = none ∧
     (ReleaseBlobLeaseBuilder.new cl).client_request_id = none) ∧
    ((bl.with_container_name cn).timeout = bl.timeout ∧
     (bl.with_blob_name bn).timeout = bl.timeout ∧
     (bl.with_lease_id lid).timeout = bl.timeout ∧
     (bl.with_client_request_id r1).timeout = bl.timeout) ∧
    ((bl.with_container_name cn).client_request_id = bl.client_request_id ∧
     (bl.with_blob_name bn).client_request_id = bl.client_request_id ∧
     (bl.with_lease_id lid).client_request_id = bl.client_request_id ∧
     (bl.with_timeout t1).client_request_id = bl.client_request_id) :=
  ⟨rfl, rfl, ⟨rfl, rfl⟩, ⟨rfl, rfl, rfl, rfl⟩, ⟨rfl, rfl, rfl, rfl⟩⟩

/-- C2: with every mandatory header present and well-formed,
`Container::from_response` succeeds with each field equal to its (decoded)
header value — the ETag and name strings verbatim; with any one mandatory
header absent (the checks before it passing), it fails with
`MissingHeaderError` carrying exactly that header's name. -/
theorem container_from_response_header_contract (hs : HeaderMap) (nm : String) :
    (∀ lm d et ls lsv lst lstv ld pa hip hipv hlh hlhv,
       getHeader hs lastModifiedH = some lm →
       parse_from_rfc2822 lm = Except.ok d →
       getHeader hs etagH = some et →
       getHeader hs leaseStatusH = some ls →
       LeaseStatus.fromString ls = Except.ok lsv →
       getHeader hs leaseStateH = some lst →
       LeaseState.fromString lst = Except.ok lstv →
       leaseDurationStep hs = Except.ok ld →
       public_access_from_header hs = Except.ok pa →
       getHeader hs hasImmutabilityPolicyH = some hip →
       bool_from_str hip = Except.ok hipv →
       getHeader hs hasLegalHoldH = some hlh →
       bool_from_str hlh = Except.ok hlhv →
       Container.from_response nm hs =
         Except.ok { name := nm, last_modified := d, e_tag := et,
                     lease_status := lsv, lease_state := lstv,
                     lease_duration := ld, public_access := pa,
                     has_immutability_policy := hipv, has_legal_hold := hlhv,
                     metadata := responseMetadata hs }) ∧
    (getHeader hs lastModifiedH = none →
       Container.from_response nm hs = Except.error (.MissingHeaderError lastModifiedH)) ∧
    (∀ lm d,
       getHeader hs lastModifiedH = some lm →
       parse_from_rfc2822 lm = Except.ok d →
       getHeader hs etagH = none →
       Container.from_response nm hs = Except.error (.MissingHeaderError etagH)) ∧
    (∀ lm d et,
       getHeader hs lastModifiedH = some lm →
       parse_from_rfc2822 lm = Except.ok d →
       getHeader hs etagH = some et →
       getHeader hs leaseStatusH = none →
       Container.from_response nm hs = Except.error (.MissingHeaderError leaseStatusH)) ∧
    (∀ lm d et ls lsv,
       getHeader hs lastModifiedH = some lm →
       parse_from_rfc2822 lm = Except.ok d →
       getHeader hs etagH = some et →
       getHeader hs leaseStatusH = some ls →
       LeaseStatus.fromString ls = Except.ok lsv →
       getHeader hs leaseStateH = none →
       Container.from_response nm hs = Except.error (.MissingHeaderError leaseStateH)) ∧
    (∀ lm d et ls lsv lst lstv ld pa,
       getHeader hs lastModifiedH = some lm →
       parse_from_rfc2822 lm = Except.ok d →
       getHeader hs etagH = some et →
       getHeader hs leaseStatusH = some ls →
       LeaseStatus.fromString ls = Except.ok lsv →
       getHeader hs leaseStateH = some lst →
       LeaseState.fromString lst = Except.ok lstv →
       leaseDurationStep hs = Except.ok ld →
       public_access_from_header hs = Except.ok pa →
       getHeader hs hasImmutabilityPolicyH = none →
       Container.from_response nm hs =
         Except.error (.MissingHeaderError hasImmutabilityPolicyH)) ∧
    (∀ lm d et ls lsv lst lstv ld pa hip hipv,
       getHeader hs lastModifiedH = some lm →
       parse_from_rfc2822 lm = Except.ok d →
       getHeader hs etagH = some et →
       getHeader hs leaseStatusH = some ls →
       LeaseStatus.fromString ls = Except.ok lsv →
       getHeader hs leaseStateH = some lst →
       LeaseState.fromString lst = Except.ok lstv →
       leaseDurationStep hs = Except.ok ld →
       public_access_from_header hs = Except.ok pa →
       getHeader hs hasImmutabilityPolicyH = some hip →
       bool_from_str hip = Except.ok hipv →
       getHeader hs hasLegalHoldH = none →
       Container.from_response nm hs = Except.error (.MissingHeaderError hasLegalHoldH)) := by
  refine ⟨?_, ?_, ?_, ?_, ?_, ?_, ?_⟩
  · intro lm d et ls lsv lst lstv ld pa hip hipv hlh hlhv
      h1 h2 h3 h4 h5 h6 h7 h8 h9 h10 h11 h12 h13
    simp only [Container.from_response, h1, h2, h3, h4, h5, h6, h7, h8, h9, h10, h11, h12, h13]
  · intro h1
    simp only [Container.from_response, h1]
  · intro lm d h1 h2 h3
    simp only [Container.from_response, h1, h2, h3]
  · intro lm d et h1 h2 h3 h4
    simp only [Container.from_response, h1, h2, h3, h4]
  · intro lm d et ls lsv h1 h2 h3 h4 h5 h6
    simp only [Container.from_response, h1, h2, h3, h4, h5, h6]
  · intro lm d et ls lsv lst lstv ld pa h1 h2 h3 h4 h5 h6 h7 h8 h9 h10
    simp only [Container.from_response, h1, h2, h3, h4, h5, h6, h7, h8, h9, h10]
  · intro lm d et ls lsv lst lstv ld pa hip hipv h1 h2 h3 h4 h5 h6 h7 h8 h9 h10 h11 h12
    simp only [Container.from_response, h1, h2, h3, h4, h5, h6, h7, h8, h9, h10, h11, h12]

/-- C2 witness: the theorem applied to a complete header map and to the
same map with the etag header removed. -/
theorem container_from_response_header_contract_w :
    Container.from_response "c" hsC2 =
      Except.ok { name := "c", last_modified := ⟨"Mon, 01 Jan 2018 00:00:00 GMT"⟩,
                  e_tag := "0x8D0", lease_status := .Unlocked, lease_state := .Available,
                  lease_duration := none, public_access := .None,
                  has_immutability_policy := false, has_legal_hold := false,
                  metadata := responseMetadata hsC2 } ∧
    Container.from_response "c" hsC2noEtag =
      Except.error (.MissingHeaderError etagH) :=
  ⟨(container_from_response_header_contract hsC2 "c").1
      "Mon, 01 Jan 2018 00:00:00 GMT" ⟨"Mon, 01 Jan 2018 00:00:00 GMT"⟩ "0x8D0"
      "unlocked" .Unlocked "available" .Available none .None
      "false" false "false" false
      rfl rfl rfl rfl rfl rfl rfl rfl rfl rfl rfl rfl rfl,
   (container_from_response_header_contract hsC2noEtag "c").2.2.1
      "Mon, 01 Jan 2018 00:00:00 GMT" ⟨"Mon, 01 Jan 2018 00:00:00 GMT"⟩
      rfl rfl rfl⟩

/-- Members of `insertKV m k v` are the inserted pair or members of `m`. -/
theorem mem_insertKV {m : List (String × String)} {k v : String} {kv : String × String}
    (h : kv ∈ insertKV m k v) : kv = (k, v) ∨ kv ∈ m := by
  unfold insertKV at h
  split at h
  · obtain ⟨kv₀, hkv₀, hef⟩ := List.mem_map.mp h
    split at hef
    · left; exact hef.symm
    · right; rw [← hef]; exact hkv₀
  · rcases List.mem_append.mp h with h' | h'
    · right; exact h'
    · left; simpa using h'

/-- `insertKV` puts the inserted key into the map. -/
theorem exists_mem_insertKV_self (m : List (String × String)) (k v : String) :
    ∃ v', (k, v') ∈ insertKV m k v := by
  unfold insertKV
  split
  · rename_i hany
    obtain ⟨kv₀, hkv₀, hk⟩ := List.any_eq_true.mp hany
    exact ⟨v, List.mem_map.mpr ⟨kv₀, hkv₀, by simp [hk]⟩⟩
  · exact ⟨v, List.mem_append.mpr (Or.inr (by simp))⟩

/-- `insertKV` keeps every key already in the map. -/
theorem exists_mem_insertKV_of {m : List (String × String)} {k' v' : String}
    (h : (k', v') ∈ m) (k v : String) : ∃ v'', (k', v'') ∈ insertKV m k v := by
  unfold insertKV
  split
  · by_cases hk : (k' == k) = true
    · have hkk : k' = k := by simpa using hk
      subst hkk
      exact ⟨v, List.mem_map.mpr ⟨(k', v'), h, by simp⟩⟩
    · exact ⟨v', List.mem_map.mpr ⟨(k', v'), h, by simp [hk]⟩⟩
  · exact ⟨v', List.mem_append.mpr (Or.inl h)⟩

/-- Soundness of the header-metadata fold: every entry comes from a
scanned header and carries the metadata prefix. -/
theorem responseMetadata_fold_mem (l : List (String × String)) :
    ∀ init : List (String × String),
      ∀ kv ∈ l.foldl metaStep init,
        kv ∈ init ∨ (kv ∈ l ∧ startsWithH kv.1 metaPrefixH = true) := by
  induction l with
  | nil => intro init kv h; exact Or.inl h
  | cons x rest ih =>
    intro init kv h
    rw [List.foldl_cons] at h
    rcases ih (metaStep init x) kv h with h' | ⟨hmem, hpre⟩
    · unfold metaStep at h'
      split at h'
      · rename_i hx
        rcases mem_insertKV h' with he | hm
        · right
          rw [he, Prod.mk.eta]
          exact ⟨List.mem_cons_self x rest, hx⟩
        · left; exact hm
      · left; exact h'
    · exact Or.inr ⟨List.mem_cons_of_mem x hmem, hpre⟩

/-- A key present in the accumulator survives the header-metadata fold. -/
theorem responseMetadata_fold_persists (l : List (String × String)) :
    ∀ init : List (String × String), ∀ k : String,
      (∃ v, (k, v) ∈ init) →
      ∃ v', (k, v') ∈ l.foldl metaStep init := by
  induction l with
  | nil => intro init k h; exact h
  | cons x rest ih =>
    intro init k h
    rw [List.foldl_cons]
    refine ih (metaStep init x) k ?_
    obtain ⟨v, hv⟩ := h
    unfold metaStep
    split
    · exact exists_mem_insertKV_of hv x.1 x.2
    · exact ⟨v, hv⟩

/-- Completeness of the header-metadata fold: every scanned prefixed
header name appears as a key of the result. -/
theorem responseMetadata_fold_complete (l : List (String × String)) :
    ∀ init : List (String × String), ∀ kv ∈ l,
      startsWithH kv.1 metaPrefixH = true →
      ∃ v', (kv.1, v') ∈ l.foldl metaStep init := by
  induction l with
  | nil => intro init kv h; exact absurd h (List.not_mem_nil kv)
  | cons x rest ih =>
    intro init kv hmem hpre
    rw [List.foldl_cons]
    rcases List.mem_cons.mp hmem with he | hm
    · subst he
      refine responseMetadata_fold_persists rest (metaStep init kv) kv.1 ?_
      unfold metaStep
      simp only [hpre, if_true]
      exact exists_mem_insertKV_self init kv.1 kv.2
    · exact ih (metaStep init x) kv hm hpre

/-- Inversion of a successful `Container::from_response`: the fields this
development reasons about, recovered from the match chain. -/
theorem from_response_ok_inversion {nm : String} {hs : HeaderMap} {cont : Container}
    (h : Container.from_response nm hs = Except.ok cont) :
    cont.name = nm ∧ cont.metadata = responseMetadata hs ∧
    leaseDurationStep hs = Except.ok cont.lease_duration ∧
    public_access_from_header hs = Except.ok cont.public_access := by
  unfold Container.from_response at h
  repeat' split at h
  all_goals first
    | exact Except.noConfusion h
    | (injection h with h'; subst h'; exact ⟨rfl, rfl, by assumption, by assumption⟩)

/-- C3 counterexample: the claim says the metadata prefix is stripped, so
that no key of the decoded metadata map begins with it; on this header map
`Container::from_response` keeps the full header name `x-ms-meta-foo` as
the key, which does begin with the prefix. -/
theorem from_response_metadata_prefix_cex :
    Container.from_response "c" hsC3 = Except.ok contC3 ∧
    contC3.metadata = [("x-ms-meta-foo", "bar")] ∧
    startsWithH "x-ms-meta-foo" metaPrefixH = true :=
  ⟨by decide, by decide, by decide⟩

/-- C3 amended: `Container::from_response` collects metadata by scanning
all headers whose name starts with the metadata prefix, but keeps the full
header name (prefix included) as the key: every entry of the resulting map
is a scanned header whose key begins with the prefix, and every scanned
prefixed header name occurs as a key. -/
theorem from_response_metadata_prefixed (hs : HeaderMap) (nm : String) (cont : Container)
    (h : Container.from_response nm hs = Except.ok cont) :
    (∀ kv ∈ cont.metadata, startsWithH kv.1 metaPrefixH = true ∧ kv ∈ hs) ∧
    (∀ kv ∈ hs, startsWithH kv.1 metaPrefixH = true → ∃ v, (kv.1, v) ∈ cont.metadata) := by
  have hmeta : cont.metadata = responseMetadata hs := (from_response_ok_inversion h).2.1
  rw [hmeta]
  constructor
  · intro kv hkv
    rcases responseMetadata_fold_mem hs [] kv hkv with h' | ⟨hmem, hpre⟩
    · exact absurd h' (List.not_mem_nil kv)
    · exact ⟨hpre, hmem⟩
  · intro kv hkv hpre
    exact responseMetadata_fold_complete hs [] kv hkv hpre

/-- C3 amended witness: the amended theorem applied to the concrete header
map `hsC3`. -/
theorem from_response_metadata_prefixed_w :
    (∀ kv ∈ contC3.metadata, startsWithH kv.1 metaPrefixH = true ∧ kv ∈ hsC3) ∧
    (∀ kv ∈ hsC3, startsWithH kv.1 metaPrefixH = true → ∃ v, (kv.1, v) ∈ contC3.metadata) :=
  from_response_metadata_prefixed hsC3 "c" contC3 (by decide)

/-- On a list of element children each wrapping a single character node,
the metadata child loop inserts one entry per child and succeeds. -/
theorem parseMetadataChildren_wf (kvs : List (String × String)) :
    ∀ hm, parseMetadataChildren
        (kvs.map (fun kv => Xml.ElementNode kv.1 [Xml.CharacterNode kv.2])) hm
      = Except.ok (kvs.foldl (fun m kv => insertKV m kv.1 kv.2) hm) := by
  induction kvs with
  | nil => intro hm; rfl
  | cons x rest ih =>
    intro hm
    rw [List.map_cons, List.foldl_cons]
    exact ih (insertKV hm x.1 x.2)

/-- Folding `insertKV` over pairs with distinct keys, all fresh for the
accumulator, appends the pairs in order. -/
theorem foldl_insertKV_nodup (kvs : List (String × String)) :
    ∀ init, (∀ kv ∈ kvs, ∀ kv' ∈ init, kv.1 ≠ kv'.1) → (kvs.map Prod.fst).Nodup →
      kvs.foldl (fun m kv => insertKV m kv.1 kv.2) init = init ++ kvs := by
  induction kvs with
  | nil => intro init _ _; simp
  | cons x rest ih =>
    intro init hdisj hnodup
    simp only [List.map_cons, List.nodup_cons] at hnodup
    rw [List.foldl_cons]
    have hx : insertKV init x.1 x.2 = init ++ [x] := by
      unfold insertKV
      rw [if_neg, Prod.mk.eta]
      intro hany
      obtain ⟨kv', hkv', hbeq⟩ := List.any_eq_true.mp hany
      have hk : kv'.1 = x.1 := by simpa using hbeq
      exact hdisj x (List.mem_cons_self x rest) kv' hkv' hk.symm
    rw [hx, ih (init ++ [x]) ?_ hnodup.2]
    · simp
    · intro kv hkv kv' hkv'
      rcases List.mem_append.mp hkv' with h' | h'
      · exact hdisj kv (List.mem_cons_of_mem x hkv) kv' h'
      · have hkvx : kv' = x := by simpa using h'
        subst hkvx
        intro heq
        exact hnodup.1 (heq ▸ List.mem_map_of_mem Prod.fst hkv)

/-- The metadata child loop runs through a prefix of accepted children
(element nodes with a leading character node), only accumulating map
entries. -/
theorem parseMetadataChildren_good_prefix (pre : List Xml)
    (h : ∀ x ∈ pre, goodMetaChild x = true) :
    ∀ hm, ∃ hm', ∀ rest,
      parseMetadataChildren (pre ++ rest) hm = parseMetadataChildren rest hm' := by
  induction pre with
  | nil => intro hm; exact ⟨hm, fun rest => rfl⟩
  | cons x pre' ih =>
    intro hm
    have hx : goodMetaChild x = true := h x (List.mem_cons_self x pre')
    cases x with
    | ElementNode n cs =>
      cases cs with
      | nil => simp [goodMetaChild] at hx
      | cons c0 cs' =>
        cases c0 with
        | CharacterNode g =>
          obtain ⟨hm', hrest⟩ :=
            ih (fun y hy => h y (List.mem_cons_of_mem _ hy)) (insertKV hm n g)
          refine ⟨hm', fun rest => ?_⟩
          simp only [List.cons_append, parseMetadataChildren]
          exact hrest rest
        | ElementNode n2 cs2 => simp [goodMetaChild] at hx
        | CDATANode s2 => simp [goodMetaChild] at hx
        | CommentNode s2 => simp [goodMetaChild] at hx
    | CharacterNode s => simp [goodMetaChild] at hx
    | CDATANode s => simp [goodMetaChild] at hx
    | CommentNode s => simp [goodMetaChild] at hx

/-- Any rejected child anywhere in a `Metadata` element's child list makes
the metadata child loop fail with an `UnexpectedXMLError`. -/
theorem parseMetadataChildren_bad_exists (children : List Xml) :
    ∀ hm, (∃ x ∈ children, goodMetaChild x = false) →
      ∃ msg, parseMetadataChildren children hm
        = Except.error (.UnexpectedXMLError msg) := by
  induction children with
  | nil =>
    intro hm hbad
    obtain ⟨x, hx, _⟩ := hbad
    exact absurd hx (List.not_mem_nil x)
  | cons x rest ih =>
    intro hm hbad
    cases hgx : goodMetaChild x with
    | true =>
      cases x with
      | ElementNode n cs =>
        cases cs with
        | nil => simp [goodMetaChild] at hgx
        | cons c0 cs' =>
          cases c0 with
          | CharacterNode g =>
            refine ih (insertKV hm n g) ?_
            obtain ⟨y, hy, hgy⟩ := hbad
            rcases List.mem_cons.mp hy with he | hm'
            · rw [he, hgx] at hgy; cases hgy
            · exact ⟨y, hm', hgy⟩
          | ElementNode n2 cs2 => simp [goodMetaChild] at hgx
          | CDATANode s2 => simp [goodMetaChild] at hgx
          | CommentNode s2 => simp [goodMetaChild] at hgx
      | CharacterNode s => simp [goodMetaChild] at hgx
      | CDATANode s => simp [goodMetaChild] at hgx
      | CommentNode s => simp [goodMetaChild] at hgx
    | false =>
      cases x with
      | ElementNode n cs =>
        cases cs with
        | nil =>
          exact ⟨"Metadata node should not be empty", rfl⟩
        | cons c0 cs' =>
          cases c0 with
          | CharacterNode g => simp [goodMetaChild] at hgx
          | ElementNode n2 cs2 =>
            exact ⟨"Metadata node should contain a CharacterNode with metadata value", rfl⟩
          | CDATANode s2 =>
            exact ⟨"Metadata node should contain a CharacterNode with metadata value", rfl⟩
          | CommentNode s2 =>
            exact ⟨"Metadata node should contain a CharacterNode with metadata value", rfl⟩
      | CharacterNode s => exact ⟨"Metadata should contain an ElementNode", rfl⟩
      | CDATANode s => exact ⟨"Metadata should contain an ElementNode", rfl⟩
      | CommentNode s => exact ⟨"Metadata should contain an ElementNode", rfl⟩

/-- Reduction of `Container::parse` to its metadata block when every
leaf cast succeeds. -/
theorem parse_metadata_reduce (elem : XmlElem)
    (nm : String) (d : DateTimeUtc) (et : String) (lstv : LeaseState)
    (ld : Option LeaseDuration) (lsv : LeaseStatus) (paOpt : Option PublicAccess)
    (hipv hlhv : Bool)
    (h1 : cast_must string_from_str elem ["Name"] = Except.ok nm)
    (h2 : cast_must parse_from_rfc2822 elem ["Properties", "Last-Modified"] = Except.ok d)
    (h3 : cast_must string_from_str elem ["Properties", "Etag"] = Except.ok et)
    (h4 : cast_must LeaseState.fromString elem ["Properties", "LeaseState"] = Except.ok lstv)
    (h5 : cast_optional LeaseDuration.fromString elem ["Properties", "LeaseDuration"]
            = Except.ok ld)
    (h6 : cast_must LeaseStatus.fromString elem ["Properties", "LeaseStatus"] = Except.ok lsv)
    (h7 : cast_optional PublicAccess.fromString elem ["Properties", "PublicAccess"]
            = Except.ok paOpt)
    (h8 : cast_must bool_from_str elem ["Properties", "HasImmutabilityPolicy"]
            = Except.ok hipv)
    (h9 : cast_must bool_from_str elem ["Properties", "HasLegalHold"] = Except.ok hlhv) :
    Container.parse elem =
      match traverseFrom [elem] ["Metadata"] true with
      | .error e => .error e
      | .ok metas =>
        match parseMetadataElems metas [] with
        | .error e => .error e
        | .ok md =>
          Except.ok { name := nm, last_modified := d, e_tag := et,
                      lease_status := lsv, lease_state := lstv, lease_duration := ld,
                      public_access := paOpt.getD PublicAccess.None,
                      has_immutability_policy := hipv, has_legal_hold := hlhv,
                      metadata := md } := by
  cases paOpt <;>
    simp only [Container.parse, h1, h2, h3, h4, h5, h6, h7, h8, h9,
      Option.getD_some, Option.getD_none]

/-- C6: the metadata block of `Container::parse` (all other casts
succeeding): an absent `Metadata` node yields an empty metadata map; a
`Metadata` node whose children are elements each holding a single text
node yields one entry per child, mapping the element name to that text;
and it fails with `UnexpectedXMLError` when any metadata child — at any
position, here after an arbitrary run of accepted entries — is not an
element node, is an empty element, or has a first child that is not a
character node; in particular any rejected child anywhere makes the parse
fail with an `UnexpectedXMLError`. -/
theorem container_parse_metadata_contract (elem : XmlElem)
    (nm : String) (d : DateTimeUtc) (et : String) (lstv : LeaseState)
    (ld : Option LeaseDuration) (lsv : LeaseStatus) (paOpt : Option PublicAccess)
    (hipv hlhv : Bool)
    (h1 : cast_must string_from_str elem ["Name"] = Except.ok nm)
    (h2 : cast_must parse_from_rfc2822 elem ["Properties", "Last-Modified"] = Except.ok d)
    (h3 : cast_must string_from_str elem ["Properties", "Etag"] = Except.ok et)
    (h4 : cast_must LeaseState.fromString elem ["Properties", "LeaseState"] = Except.ok lstv)
    (h5 : cast_optional LeaseDuration.fromString elem ["Properties", "LeaseDuration"]
            = Except.ok ld)
    (h6 : cast_must LeaseStatus.fromString elem ["Properties", "LeaseStatus"] = Except.ok lsv)
    (h7 : cast_optional PublicAccess.fromString elem ["Properties", "PublicAccess"]
            = Except.ok paOpt)
    (h8 : cast_must bool_from_str elem ["Properties", "HasImmutabilityPolicy"]
            = Except.ok hipv)
    (h9 : cast_must bool_from_str elem ["Properties", "HasLegalHold"] = Except.ok hlhv) :
    (findElems elem "Metadata" = [] →
       Container.parse elem =
         Except.ok { name := nm, last_modified := d, e_tag := et,
                     lease_status := lsv, lease_state := lstv, lease_duration := ld,
                     public_access := paOpt.getD PublicAccess.None,
                     has_immutability_policy := hipv, has_legal_hold := hlhv,
                     metadata := [] }) ∧
    (∀ mdName (kvs : List (String × String)),
       findElems elem "Metadata"
         = [(mdName, kvs.map (fun kv => Xml.ElementNode kv.1 [Xml.CharacterNode kv.2]))] →
       (kvs.map Prod.fst).Nodup →
       Container.parse elem =
         Except.ok { name := nm, last_modified := d, e_tag := et,
                     lease_status := lsv, lease_state := lstv, lease_duration := ld,
                     public_access := paOpt.getD PublicAccess.None,
                     has_immutability_policy := hipv, has_legal_hold := hlhv,
                     metadata := kvs }) ∧
    (∀ mdName pre bad rest,
       findElems elem "Metadata" = [(mdName, pre ++ bad :: rest)] →
       (∀ x ∈ pre, goodMetaChild x = true) →
       (∀ n cs, bad ≠ Xml.ElementNode n cs) →
       Container.parse elem =
         Except.error (.UnexpectedXMLError "Metadata should contain an ElementNode")) ∧
    (∀ mdName pre k rest,
       findElems elem "Metadata" = [(mdName, pre ++ Xml.ElementNode k [] :: rest)] →
       (∀ x ∈ pre, goodMetaChild x = true) →
       Container.parse elem =
         Except.error (.UnexpectedXMLError "Metadata node should not be empty")) ∧
    (∀ mdName pre k g gs rest,
       findElems elem "Metadata" = [(mdName, pre ++ Xml.ElementNode k (g :: gs) :: rest)] →
       (∀ x ∈ pre, goodMetaChild x = true) →
       (∀ s, g ≠ Xml.CharacterNode s) →
       Container.parse elem =
         Except.error (.UnexpectedXMLError
           "Metadata node should contain a CharacterNode with metadata value")) ∧
    (∀ mdName children,
       findElems elem "Metadata" = [(mdName, children)] →
       (∃ x ∈ children, goodMetaChild x = false) →
       ∃ msg, Container.parse elem = Except.error (.UnexpectedXMLError msg)) := by
  have hred := parse_metadata_reduce elem nm d et lstv ld lsv paOpt hipv hlhv
    h1 h2 h3 h4 h5 h6 h7 h8 h9
  refine ⟨?_, ?_, ?_, ?_, ?_, ?_⟩
  · intro hmeta
    rw [hred]
    simp only [traverseFrom, List.flatMap, List.map, List.flatten, hmeta,
      List.append_nil, List.isEmpty_nil, if_true, Bool.and_self, parseMetadataElems]
  · intro mdName kvs hmeta hnodup
    rw [hred]
    simp only [traverseFrom, List.flatMap, List.map, List.flatten, hmeta,
      List.append_nil, List.isEmpty_cons, Bool.false_eq_true, if_false,
      parseMetadataElems]
    rw [parseMetadataChildren_wf kvs []]
    rw [foldl_insertKV_nodup kvs [] (by intro kv _ kv' h'; cases h') hnodup]
    simp [parseMetadataElems]
  · intro mdName pre bad rest hmeta hpre hbad
    rw [hred]
    obtain ⟨hm', heq⟩ := parseMetadataChildren_good_prefix pre hpre []
    have heq' := heq (bad :: rest)
    cases bad with
    | ElementNode n cs => exact absurd rfl (hbad n cs)
    | CharacterNode s =>
      simp only [traverseFrom, List.flatMap, List.map, List.flatten, hmeta,
        List.append_nil, List.isEmpty_cons, Bool.false_eq_true, if_false,
        parseMetadataElems, heq', parseMetadataChildren]
    | CDATANode s =>
      simp only [traverseFrom, List.flatMap, List.map, List.flatten, hmeta,
        List.append_nil, List.isEmpty_cons, Bool.false_eq_true, if_false,
        parseMetadataElems, heq', parseMetadataChildren]
    | CommentNode s =>
      simp only [traverseFrom, List.flatMap, List.map, List.flatten, hmeta,
        List.append_nil, List.isEmpty_cons, Bool.false_eq_true, if_false,
        parseMetadataElems, heq', parseMetadataChildren]
  · intro mdName pre k rest hmeta hpre
    rw [hred]
    obtain ⟨hm', heq⟩ := parseMetadataChildren_good_prefix pre hpre []
    have heq' := heq (Xml.ElementNode k [] :: rest)
    simp only [traverseFrom, List.flatMap, List.map, List.flatten, hmeta,
      List.append_nil, List.isEmpty_cons, Bool.false_eq_true, if_false,
      parseMetadataElems, heq', parseMetadataChildren]
  · intro mdName pre k g gs rest hmeta hpre hg
    rw [hred]
    obtain ⟨hm', heq⟩ := parseMetadataChildren_good_prefix pre hpre []
    have heq' := heq (Xml.ElementNode k (g :: gs) :: rest)
    cases g with
    | CharacterNode s => exact absurd rfl (hg s)
    | ElementNode n2 cs2 =>
      simp only [traverseFrom, List.flatMap, List.map, List.flatten, hmeta,
        List.append_nil, List.isEmpty_cons, Bool.false_eq_true, if_false,
        parseMetadataElems, heq', parseMetadataChildren]
    | CDATANode s =>
      simp only [traverseFrom, List.flatMap, List.map, List.flatten, hmeta,
        List.append_nil, List.isEmpty_cons, Bool.false_eq_true, if_false,
        parseMetadataElems, heq', parseMetadataChildren]
    | CommentNode s =>
      simp only [traverseFrom, List.flatMap, List.map, List.flatten, hmeta,
        List.append_nil, List.isEmpty_cons, Bool.false_eq_true, if_false,
        parseMetadataElems, heq', parseMetadataChildren]
  · intro mdName children hmeta hbad
    obtain ⟨msg, herr⟩ := parseMetadataChildren_bad_exists children [] hbad
    refine ⟨msg, ?_⟩
    rw [hred]
    simp only [traverseFrom, List.flatMap, List.map, List.flatten, hmeta,
      List.append_nil, List.isEmpty_cons, Bool.false_eq_true, if_false,
      parseMetadataElems, herr]

/-- C6 witness: the metadata contract applied to a concrete tree with one
metadata entry, and to a tree whose `Metadata` has an empty-element child
after a well-formed entry. -/
theorem container_parse_metadata_contract_w :
    (Container.parse treeC6 =
      Except.ok { name := "c1", last_modified := ⟨"Mon, 01 Jan 2018 00:00:00 GMT"⟩,
                  e_tag := "0x8D0", lease_status := .Unlocked, lease_state := .Available,
                  lease_duration := none, public_access := PublicAccess.None,
                  has_immutability_policy := false, has_legal_hold := false,
                  metadata := [("foo", "bar")] }) ∧
    (Container.parse treeC6bad =
      Except.error (.UnexpectedXMLError "Metadata node should not be empty")) :=
  ⟨(container_parse_metadata_contract treeC6
      "c1" ⟨"Mon, 01 Jan 2018 00:00:00 GMT"⟩ "0x8D0" .Available none .Unlocked none
      false false
      (by decide) (by decide) (by decide) (by decide) (by decide) (by decide) (by decide)
      (by decide) (by decide)).2.1
     "Metadata" [("foo", "bar")] rfl (by decide),
   (container_parse_metadata_contract treeC6bad
      "c1" ⟨"Mon, 01 Jan 2018 00:00:00 GMT"⟩ "0x8D0" .Available none .Unlocked none
      false false
      (by decide) (by decide) (by decide) (by decide) (by decide) (by decide) (by decide)
      (by decide) (by decide)).2.2.2.1
     "Metadata" [Xml.ElementNode "foo" [Xml.CharacterNode "bar"]] "bad" [] rfl
     (by decide)⟩

/-- C9: in both decode paths the lease-duration and public-access fields
are optional with a fixed default, each independently of the other.
`Container::from_response` succeeds with `lease_duration = none` when the
lease-duration header is absent (whatever the public-access decode gives),
and with `public_access = None` when the blob-public-access header is
absent (whatever the lease-duration step gives) — neither absence ever
produces a `MissingHeaderError`; `Container::parse` reads both through
`cast_optional`, defaulting a missing lease-duration element to `none`
(whatever the public-access cast gives) and a missing public-access
element to `PublicAccess::None` (whatever the lease-duration cast
gives). -/
theorem optional_fields_default (hs : HeaderMap) (nm : String) (elem : XmlElem) :
    (∀ lm d et ls lsv lst lstv pa hip hipv hlh hlhv,
       getHeader hs lastModifiedH = some lm →
       parse_from_rfc2822 lm = Except.ok d →
       getHeader hs etagH = some et →
       getHeader hs leaseStatusH = some ls →
       LeaseStatus.fromString ls = Except.ok lsv →
       getHeader hs leaseStateH = some lst →
       LeaseState.fromString lst = Except.ok lstv →
       getHeader hs leaseDurationH = none →
       public_access_from_header hs = Except.ok pa →
       getHeader hs hasImmutabilityPolicyH = some hip →
       bool_from_str hip = Except.ok hipv →
       getHeader hs hasLegalHoldH = some hlh →
       bool_from_str hlh = Except.ok hlhv →
       Container.from_response nm hs =
         Except.ok { name := nm, last_modified := d, e_tag := et,
                     lease_status := lsv, lease_state := lstv,
                     lease_duration := none, public_access := pa,
                     has_immutability_policy := hipv, has_legal_hold := hlhv,
                     metadata := responseMetadata hs }) ∧
    (∀ lm d et ls lsv lst lstv ld hip hipv hlh hlhv,
       getHeader hs lastModifiedH = some lm →
       parse_from_rfc2822 lm = Except.ok d →
       getHeader hs etagH = some et →
       getHeader hs leaseStatusH = some ls →
       LeaseStatus.fromString ls = Except.ok lsv →
       getHeader hs leaseStateH = some lst →
       LeaseState.fromString lst = Except.ok lstv →
       leaseDurationStep hs = Except.ok ld →
       getHeader hs blobPublicAccessH = none →
       getHeader hs hasImmutabilityPolicyH = some hip →
       bool_from_str hip = Except.ok hipv →
       getHeader hs hasLegalHoldH = some hlh →
       bool_from_str hlh = Except.ok hlhv →
       Container.from_response nm hs =
         Except.ok { name := nm, last_modified := d, e_tag := et,
                     lease_status := lsv, lease_state := lstv,
                     lease_duration := ld, public_access := PublicAccess.None,
                     has_immutability_policy := hipv, has_legal_hold := hlhv,
                     metadata := responseMetadata hs }) ∧
    (∀ nm2 d2 et2 lstv2 lsv2 paOpt hipv2 hlhv2 metas md,
       cast_must string_from_str elem ["Name"] = Except.ok nm2 →
       cast_must parse_from_rfc2822 elem ["Properties", "Last-Modified"] = Except.ok d2 →
       cast_must string_from_str elem ["Properties", "Etag"] = Except.ok et2 →
       cast_must LeaseState.fromString elem ["Properties", "LeaseState"] = Except.ok lstv2 →
       cast_optional LeaseDuration.fromString elem ["Properties", "LeaseDuration"]
         = Except.ok none →
       cast_must LeaseStatus.fromString elem ["Properties", "LeaseStatus"] = Except.ok lsv2 →
       cast_optional PublicAccess.fromString elem ["Properties", "PublicAccess"]
         = Except.ok paOpt →
       cast_must bool_from_str elem ["Properties", "HasImmutabilityPolicy"]
         = Except.ok hipv2 →
       cast_must bool_from_str elem ["Properties", "HasLegalHold"] = Except.ok hlhv2 →
       traverseFrom [elem] ["Metadata"] true = Except.ok metas →
       parseMetadataElems metas [] = Except.ok md →
       Container.parse elem =
         Except.ok { name := nm2, last_modified := d2, e_tag := et2,
                     lease_status := lsv2, lease_state := lstv2,
                     lease_duration := none,
                     public_access := paOpt.getD PublicAccess.None,
                     has_immutability_policy := hipv2, has_legal_hold := hlhv2,
                     metadata := md }) ∧
    (∀ nm2 d2 et2 lstv2 ld2 lsv2 hipv2 hlhv2 metas md,
       cast_must string_from_str elem ["Name"] = Except.ok nm2 →
       cast_must parse_from_rfc2822 elem ["Properties", "Last-Modified"] = Except.ok d2 →
       cast_must string_from_str elem ["Properties", "Etag"] = Except.ok et2 →
       cast_must LeaseState.fromString elem ["Properties", "LeaseState"] = Except.ok lstv2 →
       cast_optional LeaseDuration.fromString elem ["Properties", "LeaseDuration"]
         = Except.ok ld2 →
       cast_must LeaseStatus.fromString elem ["Properties", "LeaseStatus"] = Except.ok lsv2 →
       cast_optional PublicAccess.fromString elem ["Properties", "PublicAccess"]
         = Except.ok none →
       cast_must bool_from_str elem ["Properties", "HasImmutabilityPolicy"]
         = Except.ok hipv2 →
       cast_must bool_from_str elem ["Properties", "HasLegalHold"] = Except.ok hlhv2 →
       traverseFrom [elem] ["Metadata"] true = Except.ok metas →
       parseMetadataElems metas [] = Except.ok md →
       Container.parse elem =
         Except.ok { name := nm2, last_modified := d2, e_tag := et2,
                     lease_status := lsv2, lease_state := lstv2,
                     lease_duration := ld2, public_access := PublicAccess.None,
                     has_immutability_policy := hipv2, has_legal_hold := hlhv2,
                     metadata := md }) := by
  refine ⟨?_, ?_, ?_, ?_⟩
  · intro lm d et ls lsv lst lstv pa hip hipv hlh hlhv
      h1 h2 h3 h4 h5 h6 h7 h8 h9 h10 h11 h12 h13
    simp only [Container.from_response, leaseDurationStep,
      h1, h2, h3, h4, h5, h6, h7, h8, h9, h10, h11, h12, h13]
  · intro lm d et ls lsv lst lstv ld hip hipv hlh hlhv
      h1 h2 h3 h4 h5 h6 h7 h8 h9 h10 h11 h12 h13
    simp only [Container.from_response, public_access_from_header,
      h1, h2, h3, h4, h5, h6, h7, h8, h9, h10, h11, h12, h13]
  · intro nm2 d2 et2 lstv2 lsv2 paOpt hipv2 hlhv2 metas md
      h1 h2 h3 h4 h5 h6 h7 h8 h9 h10 h11
    have hred := parse_metadata_reduce elem nm2 d2 et2 lstv2 none lsv2 paOpt hipv2 hlhv2
      h1 h2 h3 h4 h5 h6 h7 h8 h9
    rw [hred]
    simp only [h10, h11]
  · intro nm2 d2 et2 lstv2 ld2 lsv2 hipv2 hlhv2 metas md
      h1 h2 h3 h4 h5 h6 h7 h8 h9 h10 h11
    have hred := parse_metadata_reduce elem nm2 d2 et2 lstv2 ld2 lsv2 none hipv2 hlhv2
      h1 h2 h3 h4 h5 h6 h7 h8 h9
    rw [hred]
    simp only [h10, h11, Option.getD_none]

/-- C9 witness: the theorem applied to header maps and XML trees in which
exactly one of the two optional sources is absent at a time. -/
theorem optional_fields_default_w :
    (Container.from_response "c9" hsC9ld =
      Except.ok { name := "c9", last_modified := ⟨"Tue, 02 Jan 2018 00:00:00 GMT"⟩,
                  e_tag := "0x8D1", lease_status := .Locked, lease_state := .Leased,
                  lease_duration := none, public_access := PublicAccess.Blob,
                  has_immutability_policy := true, has_legal_hold := false,
                  metadata := responseMetadata hsC9ld }) ∧
    (Container.from_response "c9" hsC9pa =
      Except.ok { name := "c9", last_modified := ⟨"Tue, 02 Jan 2018 00:00:00 GMT"⟩,
                  e_tag := "0x8D1", lease_status := .Locked, lease_state := .Leased,
                  lease_duration := some .Fixed, public_access := PublicAccess.None,
                  has_immutability_policy := true, has_legal_hold := false,
                  metadata := responseMetadata hsC9pa }) ∧
    (Container.parse treeC9ld =
      Except.ok { name := "c2", last_modified := ⟨"Tue, 02 Jan 2018 00:00:00 GMT"⟩,
                  e_tag := "0x8D1", lease_status := .Locked, lease_state := .Leased,
                  lease_duration := none, public_access := PublicAccess.Container,
                  has_immutability_policy := true, has_legal_hold := false,
                  metadata := [] }) ∧
    (Container.parse treeC9pa =
      Except.ok { name := "c2", last_modified := ⟨"Tue, 02 Jan 2018 00:00:00 GMT"⟩,
                  e_tag := "0x8D1", lease_status := .Locked, lease_state := .Leased,
                  lease_duration := some .Infinite, public_access := PublicAccess.None,
                  has_immutability_policy := true, has_legal_hold := false,
                  metadata := [] }) :=
  ⟨(optional_fields_default hsC9ld "c9" treeC9ld).1
      "Tue, 02 Jan 2018 00:00:00 GMT" ⟨"Tue, 02 Jan 2018 00:00:00 GMT"⟩ "0x8D1"
      "locked" .Locked "leased" .Leased .Blob "true" true "false" false
      (by decide) (by decide) (by decide) (by decide) (by decide) (by decide) (by decide)
      (by decide) (by decide) (by decide) (by decide) (by decide) (by decide),
   (optional_fields_default hsC9pa "c9" treeC9pa).2.1
      "Tue, 02 Jan 2018 00:00:00 GMT" ⟨"Tue, 02 Jan 2018 00:00:00 GMT"⟩ "0x8D1"
      "locked" .Locked "leased" .Leased (some .Fixed) "true" true "false" false
      (by decide) (by decide) (by decide) (by decide) (by decide) (by decide) (by decide)
      (by decide) (by decide) (by decide) (by decide) (by decide) (by decide),
   (optional_fields_default hsC9ld "c9" treeC9ld).2.2.1
      "c2" ⟨"Tue, 02 Jan 2018 00:00:00 GMT"⟩ "0x8D1" .Leased .Locked (some .Container)
      true false [] []
      (by decide) (by decide) (by decide) (by decide) (by decide) (by decide) (by decide)
      (by decide) (by decide) rfl (by decide),
   (optional_fields_default hsC9pa "c9" treeC9pa).2.2.2
      "c2" ⟨"Tue, 02 Jan 2018 00:00:00 GMT"⟩ "0x8D1" .Leased (some .Infinite) .Locked
      true false [] []
      (by decide) (by decide) (by decide) (by decide) (by decide) (by decide) (by decide)
      (by decide) (by decide) rfl (by decide)⟩

/-- C10: `PublicAccessRequired::add_header` appends exactly one
blob-public-access header holding the value's string form when the value
is not `PublicAccess::None`, and leaves the builder untouched when it is
`None`. -/
theorem public_access_add_header_spec (pa : PublicAccess) (b : HttpBuilder) :
    (publicAccessAddHeader pa b
       = if pa = PublicAccess.None then b
         else b.header blobPublicAccessH pa.as_ref) ∧
    ((publicAccessAddHeader pa b).headers.filter
        (fun kv => kv.1 == blobPublicAccessH)).length
      = (b.headers.filter (fun kv => kv.1 == blobPublicAccessH)).length
          + (if pa = PublicAccess.None then 0 else 1) := by
  cases pa <;>
    simp [publicAccessAddHeader, HttpBuilder.header, List.filter_append]

/-- C5: the response pipeline of `ReleaseBlobLeaseBuilder::finalize`
accepts exactly the documented success status 200 OK (yielding the decoded
entity) and turns every other status into `UnexpectedStatusCode`, headers
and body notwithstanding. -/
theorem release_finalize_status_gate (resp : RawResponse) (e : ReleaseBlobLeaseResponse) :
    (resp.status = 200 →
       ReleaseBlobLeaseResponse.from_headers resp.headers = Except.ok e →
       releaseBlobLeaseRespond resp = Except.ok e) ∧
    (resp.status ≠ 200 →
       releaseBlobLeaseRespond resp
         = Except.error (.UnexpectedStatusCode 200 resp.status)) := by
  constructor
  · intro h200 hdec
    simp only [releaseBlobLeaseRespond, check_status_extract_headers_and_body,
      h200, if_true, hdec]
  · intro hne
    simp only [releaseBlobLeaseRespond, check_status_extract_headers_and_body,
      if_neg hne]

/-- C5 witness: the status gate applied to a 200 response and to a 404
response with identical well-formed headers. -/
theorem release_finalize_status_gate_w :
    releaseBlobLeaseRespond ⟨200, [("etag", "E"), ("x-ms-request-id", "R")], ""⟩
      = Except.ok ⟨"E", "R"⟩ ∧
    releaseBlobLeaseRespond ⟨404, [("etag", "E"), ("x-ms-request-id", "R")], ""⟩
      = Except.error (.UnexpectedStatusCode 200 404) :=
  ⟨(release_finalize_status_gate ⟨200, [("etag", "E"), ("x-ms-request-id", "R")], ""⟩
      ⟨"E", "R"⟩).1 rfl (by decide),
   (release_finalize_status_gate ⟨404, [("etag", "E"), ("x-ms-request-id", "R")], ""⟩
      ⟨"E", "R"⟩).2 (by decide)⟩

/-- `afterFirst` finds the first separator. -/
theorem afterFirst_of_not_mem {sep : Char} {xs : List Char} (h : sep ∉ xs) (ys : List Char) :
    afterFirst sep (xs ++ sep :: ys) = some ys := by
  induction xs with
  | nil => simp [afterFirst]
  | cons c cs ih =>
    have hc : c ≠ sep := fun hh => h (hh ▸ List.mem_cons_self c cs)
    have hcs : sep ∉ cs := fun hh => h (List.mem_cons_of_mem c hh)
    simp only [List.cons_append, afterFirst, if_neg hc]
    exact ih hcs

/-- A separator-free chunk splits into itself. -/
theorem splitOnSep_of_not_mem {sep : Char} {xs : List Char} (h : sep ∉ xs) :
    splitOnSep sep xs = [xs] := by
  induction xs with
  | nil => rfl
  | cons c cs ih =>
    have hc : c ≠ sep := fun hh => h (hh ▸ List.mem_cons_self c cs)
    have hcs : sep ∉ cs := fun hh => h (List.mem_cons_of_mem c hh)
    simp only [splitOnSep, if_neg hc, ih hcs]

/-- Splitting past a leading separator-free chunk. -/
theorem splitOnSep_append {sep : Char} {xs : List Char} (h : sep ∉ xs) (ys : List Char) :
    splitOnSep sep (xs ++ sep :: ys) = xs :: splitOnSep sep ys := by
  induction xs with
  | nil => simp [splitOnSep]
  | cons c cs ih =>
    have hc : c ≠ sep := fun hh => h (hh ▸ List.mem_cons_self c cs)
    have hcs : sep ∉ cs := fun hh => h (List.mem_cons_of_mem c hh)
    simp only [List.cons_append, splitOnSep, if_neg hc, List.append_eq, ih hcs]

/-- The query chunks of `path?q` for a `?`-free path and `&`-free query. -/
theorem queryPairs_assemble (path q : String)
    (hpath : ∀ ch ∈ path.data, ch ≠ '?') (hq : '&' ∉ q.data) :
    queryPairs (path ++ "?" ++ q) = [q] := by
  have hdata : (path ++ "?" ++ q).data = path.data ++ '?' :: q.data := by
    simp [String.data_append, List.append_assoc]
  simp only [queryPairs, hdata,
    afterFirst_of_not_mem (fun hm => (hpath _ hm) rfl) q.data,
    splitOnSep_of_not_mem hq, List.map]

/-- The query chunks of `path?q1&q2`. -/
theorem queryPairs_assemble₂ (path q₁ q₂ : String)
    (hpath : ∀ ch ∈ path.data, ch ≠ '?')
    (h1 : '&' ∉ q₁.data) (h2 : '&' ∉ q₂.data) :
    queryPairs (path ++ "?" ++ q₁ ++ "&" ++ q₂) = [q₁, q₂] := by
  have hdata : (path ++ "?" ++ q₁ ++ "&" ++ q₂).data
      = path.data ++ '?' :: (q₁.data ++ '&' :: q₂.data) := by
    simp [String.data_append, List.append_assoc]
  simp only [queryPairs, hdata,
    afterFirst_of_not_mem (fun hm => (hpath _ hm) rfl) (q₁.data ++ '&' :: q₂.data),
    splitOnSep_append h1 q₂.data, splitOnSep_of_not_mem h2, List.map]

/-- Hex digits are never query-delimiter characters. -/
theorem hexDigit_not_query : ∀ n, n < 16 → hexDigit n ≠ '?' ∧ hexDigit n ≠ '&' := by
  decide

/-- Percent-encoded output never contains `?` or `&`: safe characters are
not delimiters and escapes are built from `%` and hex digits. -/
theorem percentEncode_no_query (s : String) :
    ∀ ch ∈ (percentEncode s).data, ch ≠ '?' ∧ ch ≠ '&' := by
  intro ch hch
  have hch' : ch ∈ s.data.flatMap (fun c =>
      if isUrlSafeChar c then [c]
      else (utf8Bytes c).flatMap
        (fun b => ['%', hexDigit (b / 16 % 16), hexDigit (b % 16)])) := hch
  obtain ⟨a, _, hfa⟩ := List.mem_flatMap.mp hch'
  by_cases hsafe : isUrlSafeChar a = true
  · rw [if_pos hsafe] at hfa
    have ha : ch = a := by simpa using hfa
    subst ha
    constructor <;> intro hq <;> rw [hq] at hsafe <;> exact absurd hsafe (by decide)
  · rw [if_neg hsafe] at hfa
    obtain ⟨b, _, hb⟩ := List.mem_flatMap.mp hfa
    have hb' : ch = '%' ∨ ch = hexDigit (b / 16 % 16) ∨ ch = hexDigit (b % 16) := by
      simpa using hb
    rcases hb' with he | he | he <;> subst he
    · exact ⟨by decide, by decide⟩
    · exact hexDigit_not_query _ (Nat.mod_lt _ (by decide))
    · exact hexDigit_not_query _ (Nat.mod_lt _ (by decide))

/-- Decimal digit output of `Nat.toDigitsCore` never contains `?` or `&`. -/
theorem toDigitsCore_no_query :
    ∀ (fuel n : Nat) (acc : List Char),
      (∀ c ∈ acc, c ≠ '?' ∧ c ≠ '&') →
      ∀ c ∈ Nat.toDigitsCore 10 fuel n acc, c ≠ '?' ∧ c ≠ '&' := by
  intro fuel
  induction fuel with
  | zero =>
    intro n acc hacc c hc
    simp only [Nat.toDigitsCore] at hc
    exact hacc c hc
  | succ fuel ih =>
    intro n acc hacc c hc
    simp only [Nat.toDigitsCore] at hc
    have hd : Nat.digitChar (n % 10) ≠ '?' ∧ Nat.digitChar (n % 10) ≠ '&' := by
      have hlt : n % 10 < 10 := Nat.mod_lt _ (by decide)
      have hall : ∀ m, m < 10 → Nat.digitChar m ≠ '?' ∧ Nat.digitChar m ≠ '&' := by decide
      exact hall _ hlt
    split at hc
    · rcases List.mem_cons.mp hc with he | hm
      · rw [he]; exact hd
      · exact hacc c hm
    · refine ih (n / 10) (Nat.digitChar (n % 10) :: acc) ?_ c hc
      intro c' hc'
      rcases List.mem_cons.mp hc' with he | hm
      · rw [he]; exact hd
      · exact hacc c' hm

/-- The decimal form of a `Nat` never contains `?` or `&`. -/
theorem toString_nat_no_query (t : Nat) :
    ∀ ch ∈ (toString t).data, ch ≠ '?' ∧ ch ≠ '&' := by
  intro ch hch
  have hch' : ch ∈ Nat.toDigitsCore 10 (t + 1) t [] := hch
  exact toDigitsCore_no_query (t + 1) t [] (by intro c hc; cases hc) ch hch'

/-- C4 counterexample: the claim promises one query key=value pair per
applied optional field; on a fully-set builder with
`with_client_request_id` applied, the finalized URI's query string is just
the `comp=lease` marker — the client request id contributes no query
pair (it travels as a header instead). -/
theorem release_finalize_query_cex :
    queryPairs bC4.finalizeUri = ["comp=lease"] ∧
    bC4.client_request_id_opt = some "rid" :=
  ⟨by decide, rfl⟩

/-- C4 amended: the finalized URI's query string is the `comp=lease`
marker followed by exactly one `timeout=` pair when `with_timeout` was
applied and nothing otherwise; `with_client_request_id` instead
contributes exactly one client-request-id header; and the outcome is
independent of the order of the optional mutators, which commute. -/
theorem release_finalize_query_amended (b : ReleaseBlobLeaseBuilder true true true)
    (hacc : ∀ ch ∈ b.client.account.data, ch ≠ '?' ∧ ch ≠ '&') :
    (queryPairs b.finalizeUri
       = "comp=lease" :: (match b.timeout with
                          | some t => ["timeout=" ++ toString t]
                          | none => [])) ∧
    (b.finalizeHeaders
       = [(leaseIdH, b.lease_id_acc), (leaseActionH, "release")]
           ++ (match b.client_request_id with
               | some v => [(clientRequestIdH, v)]
               | none => [])) ∧
    (∀ t r, (b.with_timeout t).with_client_request_id r
       = (b.with_client_request_id r).with_timeout t) := by
  have hconst1 : ∀ c ∈ ("https://").data, c ≠ '?' ∧ c ≠ '&' := by decide
  have hconst2 : ∀ c ∈ (".blob.core.windows.net/").data, c ≠ '?' ∧ c ≠ '&' := by decide
  have hconst3 : ∀ c ∈ ("/").data, c ≠ '?' ∧ c ≠ '&' := by decide
  have hpath : ∀ ch ∈ ("https://" ++ b.client.account ++ ".blob.core.windows.net/"
      ++ percentEncode b.container_name_acc ++ "/"
      ++ percentEncode b.blob_name_acc).data, ch ≠ '?' := by
    intro ch hch
    simp only [String.data_append, List.mem_append, or_assoc] at hch
    rcases hch with h | h | h | h | h | h
    · exact (hconst1 ch h).1
    · exact (hacc ch h).1
    · exact (hconst2 ch h).1
    · exact (percentEncode_no_query b.container_name_acc ch h).1
    · exact (hconst3 ch h).1
    · exact (percentEncode_no_query b.blob_name_acc ch h).1
  refine ⟨?_, ?_, ?_⟩
  · cases ht : b.timeout with
    | none =>
      simp only [ReleaseBlobLeaseBuilder.finalizeUri, generate_blob_uri,
        timeout_to_uri_parameter, ht]
      rw [queryPairs_assemble _ _ hpath (by decide)]
    | some t =>
      simp only [ReleaseBlobLeaseBuilder.finalizeUri, generate_blob_uri,
        timeout_to_uri_parameter, ht]
      rw [queryPairs_assemble₂ _ _ _ hpath (by decide) ?_]
      intro hm
      rw [String.data_append] at hm
      rcases List.mem_append.mp hm with h | h
      · exact (by decide : ∀ c ∈ ("timeout=").data, c ≠ '&') '&' h rfl
      · exact (toString_nat_no_query t '&' h).2 rfl
  · cases hcr : b.client_request_id with
    | none =>
      simp [ReleaseBlobLeaseBuilder.finalizeHeaders, clientRequestIdAddHeader,
        leaseIdAddHeader, HttpBuilder.header, hcr]
    | some v =>
      simp [ReleaseBlobLeaseBuilder.finalizeHeaders, clientRequestIdAddHeader,
        leaseIdAddHeader, HttpBuilder.header, hcr]
  · intro t r
    rfl

/-- C4 amended witness: the amended theorem applied to the concrete
fully-set builder `bC4`. -/
theorem release_finalize_query_amended_w :
    queryPairs bC4.finalizeUri = ["comp=lease"] ∧
    bC4.finalizeHeaders
      = [("x-ms-lease-id", "lid"), ("x-ms-lease-action", "release"),
         ("x-ms-client-request-id", "rid")] := by
  have h := release_finalize_query_amended bC4 (by decide)
  exact ⟨h.1, h.2.1⟩

end AzureSDK
